import Mathlib

/-!
Verification of the block-index and active-chain subsystem (src/src/chain.h).

The C++ classes are shallowly embedded as Lean structures and executable
functions.  Machine integers are modelled as `Nat`/`Int`; a C++ assertion
failure is modelled as an `Option` result being `none`; a NULL pointer is
modelled as `Option.none`.  Block-index nodes form a tree reachable through
`pprev`, so `CBlockIndex` is an inductive type whose `pprev`/`pskip` fields
hold the (immutable view of the) parent node.  `CChain` stores bare node
pointers (`std::vector<CBlockIndex*>`), modelled as abstract addresses.
-/

/-! ### BlockStatus constants (enum BlockStatus in chain.h) -/

def BLOCK_VALID_HEADER : Nat := 1

def BLOCK_VALID_TREE : Nat := 2

def BLOCK_VALID_TRANSACTIONS : Nat := 3

def BLOCK_VALID_CHAIN : Nat := 4

def BLOCK_VALID_SCRIPTS : Nat := 5

def BLOCK_VALID_MASK : Nat :=
  BLOCK_VALID_HEADER ||| BLOCK_VALID_TREE ||| BLOCK_VALID_TRANSACTIONS |||
    BLOCK_VALID_CHAIN ||| BLOCK_VALID_SCRIPTS

def BLOCK_HAVE_DATA : Nat := 8

def BLOCK_HAVE_UNDO : Nat := 16

def BLOCK_HAVE_MASK : Nat := BLOCK_HAVE_DATA ||| BLOCK_HAVE_UNDO

def BLOCK_FAILED_VALID : Nat := 32

def BLOCK_FAILED_CHILD : Nat := 64

def BLOCK_FAILED_MASK : Nat := BLOCK_FAILED_VALID ||| BLOCK_FAILED_CHILD

/-! ### nFlags constants (enum inside CBlockIndex) -/

def BLOCK_PROOF_OF_STAKE : Nat := 1

def BLOCK_STAKE_ENTROPY : Nat := 2

def BLOCK_STAKE_MODIFIER : Nat := 4

/-- Modelled from the spec: `COutPoint` comes from primitives/transaction.h,
which is not under src/; the spec only needs a transaction-output reference
with a designated null value ("stake outpoint ... null"). -/
structure COutPoint where
  hash : Nat
  n : Nat
deriving DecidableEq, Repr

/-- Modelled from the spec: the null outpoint (`COutPoint::SetNull`). -/
def COutPoint.null : COutPoint := ⟨0, 4294967295⟩

/-- Modelled from the spec: a block-header value consumed from
primitives/block.h (version, prev-hash, merkle root, time, bits, nonce). -/
structure CBlockHeader where
  nVersion : Int
  hashPrevBlock : Nat
  hashMerkleRoot : Nat
  nTime : Nat
  nBits : Nat
  nNonce : Nat
deriving DecidableEq, Repr

/-- The scalar (non-pointer) fields of CBlockIndex, in declaration order.
`phashBlock` is a pointer to the block hash owned elsewhere; we model it as
the pointed-to hash value, `none` standing for NULL. -/
structure CBlockIndexData where
  phashBlock : Option Nat
  nChainTrust : Nat
  nHeight : Int
  nFile : Int
  nDataPos : Nat
  nUndoPos : Nat
  nTx : Nat
  nChainTx : Nat
  nStatus : Nat
  nMint : Int
  nMoneySupply : Int
  nFlags : Nat
  nStakeModifier : Nat
  prevoutStake : COutPoint
  nStakeTime : Nat
  hashProof : Nat
  POSDetailSet : Bool
  nVersion : Int
  hashMerkleRoot : Nat
  nTime : Nat
  nBits : Nat
  nNonce : Nat
  nSequenceId : Nat
deriving DecidableEq, Repr

/-- CBlockIndex: the scalar fields together with the `pprev` and `pskip`
pointers, which in this value model hold the reachable parent subtree. -/
inductive CBlockIndex where
  | mk (data : CBlockIndexData) (pprev : Option CBlockIndex)
      (pskip : Option CBlockIndex)

def CBlockIndex.data : CBlockIndex → CBlockIndexData
  | .mk d _ _ => d

def CBlockIndex.pprev : CBlockIndex → Option CBlockIndex
  | .mk _ p _ => p

def CBlockIndex.pskip : CBlockIndex → Option CBlockIndex
  | .mk _ _ s => s

def CBlockIndex.phashBlock (p : CBlockIndex) : Option Nat := p.data.phashBlock

def CBlockIndex.nChainTrust (p : CBlockIndex) : Nat := p.data.nChainTrust

def CBlockIndex.nHeight (p : CBlockIndex) : Int := p.data.nHeight

def CBlockIndex.nFile (p : CBlockIndex) : Int := p.data.nFile

def CBlockIndex.nDataPos (p : CBlockIndex) : Nat := p.data.nDataPos

def CBlockIndex.nUndoPos (p : CBlockIndex) : Nat := p.data.nUndoPos

def CBlockIndex.nTx (p : CBlockIndex) : Nat := p.data.nTx

def CBlockIndex.nChainTx (p : CBlockIndex) : Nat := p.data.nChainTx

def CBlockIndex.nStatus (p : CBlockIndex) : Nat := p.data.nStatus

def CBlockIndex.nMint (p : CBlockIndex) : Int := p.data.nMint

def CBlockIndex.nMoneySupply (p : CBlockIndex) : Int := p.data.nMoneySupply

def CBlockIndex.nFlags (p : CBlockIndex) : Nat := p.data.nFlags

def CBlockIndex.nStakeModifier (p : CBlockIndex) : Nat := p.data.nStakeModifier

def CBlockIndex.prevoutStake (p : CBlockIndex) : COutPoint := p.data.prevoutStake

def CBlockIndex.nStakeTime (p : CBlockIndex) : Nat := p.data.nStakeTime

def CBlockIndex.hashProof (p : CBlockIndex) : Nat := p.data.hashProof

def CBlockIndex.POSDetailSet (p : CBlockIndex) : Bool := p.data.POSDetailSet

def CBlockIndex.nVersion (p : CBlockIndex) : Int := p.data.nVersion

def CBlockIndex.hashMerkleRoot (p : CBlockIndex) : Nat := p.data.hashMerkleRoot

def CBlockIndex.nTime (p : CBlockIndex) : Nat := p.data.nTime

def CBlockIndex.nBits (p : CBlockIndex) : Nat := p.data.nBits

def CBlockIndex.nNonce (p : CBlockIndex) : Nat := p.data.nNonce

def CBlockIndex.nSequenceId (p : CBlockIndex) : Nat := p.data.nSequenceId

/-- CBlockIndex::SetNull() field values. -/
def CBlockIndexData.null : CBlockIndexData where
  phashBlock := none
  nChainTrust := 0
  nHeight := 0
  nFile := 0
  nDataPos := 0
  nUndoPos := 0
  nTx := 0
  nChainTx := 0
  nStatus := 0
  nMint := 0
  nMoneySupply := 0
  nFlags := 0
  nStakeModifier := 0
  prevoutStake := COutPoint.null
  nStakeTime := 0
  hashProof := 0
  POSDetailSet := false
  nVersion := 0
  hashMerkleRoot := 0
  nTime := 0
  nBits := 0
  nNonce := 0
  nSequenceId := 0

/-- The default-constructed CBlockIndex (constructor calls SetNull). -/
def CBlockIndex.null : CBlockIndex := .mk CBlockIndexData.null none none

/-- Replace the scalar data, keeping `pprev`/`pskip` (field assignment). -/
def CBlockIndex.withData (p : CBlockIndex) (d : CBlockIndexData) : CBlockIndex :=
  .mk d p.pprev p.pskip

/-! ### CBlockIndex operations -/

/-- `return *phashBlock;` — dereferences the hash pointer; `none` models the
NULL dereference that a node without an assigned hash would perform. -/
def CBlockIndex.GetBlockHash (p : CBlockIndex) : Option Nat := p.phashBlock

def CBlockIndex.GetBlockTime (p : CBlockIndex) : Int := (p.nTime : Int)

def CBlockIndex.GetPastTimeLimit (p : CBlockIndex) : Int := p.GetBlockTime - 120

def nMedianTimeSpan : Nat := 11

/-- The block times written into `pmedian` by the loop in GetMedianTimePast:
this node's time followed by the times of up to `n - 1` ancestors. -/
def CBlockIndex.medianTimes : Nat → CBlockIndex → List Int
  | 0, _ => []
  | n + 1, p =>
    p.GetBlockTime ::
      (match p.pprev with
       | some q => CBlockIndex.medianTimes n q
       | none => [])

/-- GetMedianTimePast: sort the collected times and take index `count / 2`.
`std::sort` on distinct-address int64 values yields the unique sorted
permutation, which `List.insertionSort` computes as well. -/
def CBlockIndex.GetMedianTimePast (p : CBlockIndex) : Int :=
  let collected := CBlockIndex.medianTimes nMedianTimeSpan p
  let sorted := collected.insertionSort (· ≤ ·)
  sorted.getD (collected.length / 2) 0

/-- IsProofOfWork: the source performs no assertion here, so the call always
returns; it is the complement of the proof-of-stake flag bit. -/
def CBlockIndex.IsProofOfWork (p : CBlockIndex) : Option Bool :=
  some (p.nFlags &&& BLOCK_PROOF_OF_STAKE == 0)

/-- IsProofOfStake: `assert(POSDetailSet == true)` guards the read; a false
flag makes the call fail (modelled as `none`). -/
def CBlockIndex.IsProofOfStake (p : CBlockIndex) : Option Bool :=
  if p.POSDetailSet then some (p.nFlags &&& BLOCK_PROOF_OF_STAKE != 0) else none

def CBlockIndex.SetProofOfStake (p : CBlockIndex) : CBlockIndex :=
  p.withData { p.data with nFlags := p.nFlags ||| BLOCK_PROOF_OF_STAKE }

def CBlockIndex.GetStakeEntropyBit (p : CBlockIndex) : Nat :=
  (p.nFlags &&& BLOCK_STAKE_ENTROPY) >>> 1

def CBlockIndex.SetStakeEntropyBit (p : CBlockIndex) (nEntropyBit : Nat) :
    Bool × CBlockIndex :=
  if nEntropyBit > 1 then (false, p)
  else
    (true,
      p.withData
        { p.data with
          nFlags := p.nFlags ||| (if nEntropyBit ≠ 0 then BLOCK_STAKE_ENTROPY else 0) })

def CBlockIndex.GeneratedStakeModifier (p : CBlockIndex) : Bool :=
  p.nFlags &&& BLOCK_STAKE_MODIFIER != 0

def CBlockIndex.SetStakeModifier (p : CBlockIndex) (nModifier : Nat)
    (fGeneratedStakeModifier : Bool) : CBlockIndex :=
  p.withData
    { p.data with
      nStakeModifier := nModifier
      nFlags :=
        if fGeneratedStakeModifier then p.nFlags ||| BLOCK_STAKE_MODIFIER
        else p.nFlags }

/-- The assertion `!(nUpTo & ~BLOCK_VALID_MASK)`: for a 32-bit unsigned
argument this holds exactly when every set bit of `nUpTo` lies inside
BLOCK_VALID_MASK. -/
def validityArgOk (nUpTo : Nat) : Bool := nUpTo &&& BLOCK_VALID_MASK == nUpTo

/-- Bitwise NOT of a mask within a 32-bit unsigned word. -/
def complement32 (m : Nat) : Nat := 0xFFFFFFFF ^^^ m

/-- IsValid: `none` when the validity-argument assertion fires. -/
def CBlockIndex.IsValid (p : CBlockIndex)
    (nUpTo : Nat := BLOCK_VALID_TRANSACTIONS) : Option Bool :=
  if validityArgOk nUpTo then
    if p.nStatus &&& BLOCK_FAILED_MASK ≠ 0 then some false
    else some (decide (nUpTo ≤ p.nStatus &&& BLOCK_VALID_MASK))
  else none

/-- The status assignment performed by RaiseValidity:
`nStatus = (nStatus & ~BLOCK_VALID_MASK) | nUpTo`. -/
def CBlockIndex.withRaisedStatus (p : CBlockIndex) (nUpTo : Nat) : CBlockIndex :=
  p.withData
    { p.data with
      nStatus := (p.nStatus &&& complement32 BLOCK_VALID_MASK) ||| nUpTo }

/-- RaiseValidity: returns the advanced flag together with the updated node;
`none` when the validity-argument assertion fires. -/
def CBlockIndex.RaiseValidity (p : CBlockIndex) (nUpTo : Nat) :
    Option (Bool × CBlockIndex) :=
  if validityArgOk nUpTo then
    if p.nStatus &&& BLOCK_FAILED_MASK ≠ 0 then some (false, p)
    else if p.nStatus &&& BLOCK_VALID_MASK < nUpTo then
      some (true, p.withRaisedStatus nUpTo)
    else some (false, p)
  else none

/-! ### CDiskBlockIndex -/

/-- CDiskBlockIndex is-a CBlockIndex plus the private cached `blockHash` and
the public `hashPrev` substituting for the parent pointer. -/
structure CDiskBlockIndex where
  toCBlockIndex : CBlockIndex
  blockHash : Nat
  hashPrev : Nat

/-- `CDiskBlockIndex(CBlockIndex*)`: copy the node, set
`hashPrev = pprev ? pprev->GetBlockHash() : 0`; the private `blockHash`
member is value-initialized to 0.  `none` models the NULL dereference when
the parent exists but carries no hash. -/
def CDiskBlockIndex.ofIndex (p : CBlockIndex) : Option CDiskBlockIndex :=
  match p.pprev with
  | none => some ⟨p, 0, 0⟩
  | some pr =>
    match pr.GetBlockHash with
    | some h => some ⟨p, 0, h⟩
    | none => none

/-- One stream element, as written by a single READWRITE of a scalar field;
VARINT and fixed-width encodings are injective on their value ranges, so the
stream is modelled at field granularity. -/
def readOne : List Int → Option (Int × List Int)
  | [] => none
  | x :: s => some (x, s)

/-- The write path of CDiskBlockIndex::SerializationOp.  The first VARINT
carries the serialization format version parameter (omitted under
SER_GETHASH), not the member `nVersion`.  Before the stake fields are
written, `POSDetailSet` is forced to true, so `IsProofOfStake()` reduces to
the BLOCK_PROOF_OF_STAKE bit of `nFlags`. -/
def CDiskBlockIndex.encode (d : CDiskBlockIndex) (serGetHash : Bool)
    (serVersion : Int) : List Int :=
  let b := d.toCBlockIndex
  (if serGetHash then [] else [serVersion]) ++
    [b.nHeight, (b.nStatus : Int), (b.nTx : Int)] ++
    (if b.nStatus &&& (BLOCK_HAVE_DATA ||| BLOCK_HAVE_UNDO) ≠ 0 then [b.nFile]
     else []) ++
    (if b.nStatus &&& BLOCK_HAVE_DATA ≠ 0 then [(b.nDataPos : Int)] else []) ++
    (if b.nStatus &&& BLOCK_HAVE_UNDO ≠ 0 then [(b.nUndoPos : Int)] else []) ++
    [b.nMint, b.nMoneySupply, (b.nFlags : Int), (b.nStakeModifier : Int)] ++
    (if b.nFlags &&& BLOCK_PROOF_OF_STAKE ≠ 0 then
        [(b.prevoutStake.hash : Int), (b.prevoutStake.n : Int),
          (b.nStakeTime : Int)]
      else []) ++
    [(b.hashProof : Int), b.nVersion, (d.hashPrev : Int),
      (b.hashMerkleRoot : Int), (b.nTime : Int), (b.nBits : Int),
      (b.nNonce : Int), (d.blockHash : Int)]

/-- Conditionally-present field: read one stream element when the guard
holds, otherwise keep the default value 0 (the field keeps its SetNull
value in the default-constructed record being deserialized into). -/
def readIf (c : Bool) (s : List Int) : Option (Int × List Int) :=
  if c then readOne s else some (0, s)

/-- Final stage of the read path: proof hash, header fields and cached
block hash, then assemble the record over the SetNull defaults.
`POSDetailSet` has been forced to true by the time this stage runs. -/
def CDiskBlockIndex.decodeRest (height : Int) (nStatus : Nat) (tx : Int)
    (file : Int) (dataPos undoPos : Nat) (mint supply : Int) (nFlags : Nat)
    (modifier : Nat) (pvHash pvN stakeTime : Nat) (s : List Int) :
    Option (CDiskBlockIndex × List Int) :=
  match s with
  | proof :: version :: hPrev :: merkle :: time :: bits :: nonce ::
      bHash :: rest =>
    some
      (⟨CBlockIndex.mk
          { CBlockIndexData.null with
            nHeight := height
            nStatus := nStatus
            nTx := tx.toNat
            nFile := file
            nDataPos := dataPos
            nUndoPos := undoPos
            nMint := mint
            nMoneySupply := supply
            nFlags := nFlags
            nStakeModifier := modifier
            prevoutStake := ⟨pvHash, pvN⟩
            nStakeTime := stakeTime
            POSDetailSet := true
            hashProof := proof.toNat
            nVersion := version
            hashMerkleRoot := merkle.toNat
            nTime := time.toNat
            nBits := bits.toNat
            nNonce := nonce.toNat }
          none none,
        bHash.toNat, hPrev.toNat⟩,
        rest)
  | _ => none

/-- Stake stage of the read path: the `const_cast` marks `POSDetailSet` true
unconditionally; when the proof-of-stake flag is set the outpoint and stake
time are read, otherwise they are reset to null/zero. -/
def CDiskBlockIndex.decodeStake (height : Int) (nStatus : Nat) (tx : Int)
    (file : Int) (dataPos undoPos : Nat) (mint supply : Int) (nFlags : Nat)
    (modifier : Nat) (s : List Int) : Option (CDiskBlockIndex × List Int) :=
  if nFlags &&& BLOCK_PROOF_OF_STAKE ≠ 0 then
    match s with
    | a :: b :: c :: rest =>
      CDiskBlockIndex.decodeRest height nStatus tx file dataPos undoPos mint
        supply nFlags modifier a.toNat b.toNat c.toNat rest
    | _ => none
  else
    CDiskBlockIndex.decodeRest height nStatus tx file dataPos undoPos mint
      supply nFlags modifier COutPoint.null.hash COutPoint.null.n 0 s

/-- Disk-position stage of the read path: `nFile`, `nDataPos`, `nUndoPos`
are each present only under their status-flag guard, then the four
unconditional fields before the flags-dependent stake stage. -/
def CDiskBlockIndex.decodePos (height : Int) (nStatus : Nat) (tx : Int)
    (s : List Int) : Option (CDiskBlockIndex × List Int) :=
  match readIf (nStatus &&& (BLOCK_HAVE_DATA ||| BLOCK_HAVE_UNDO) ≠ 0) s with
  | none => none
  | some (file, s) =>
    match readIf (nStatus &&& BLOCK_HAVE_DATA ≠ 0) s with
    | none => none
    | some (dataPos, s) =>
      match readIf (nStatus &&& BLOCK_HAVE_UNDO ≠ 0) s with
      | none => none
      | some (undoPos, s) =>
        match s with
        | mint :: supply :: flags :: modifier :: rest =>
          CDiskBlockIndex.decodeStake height nStatus tx file dataPos.toNat
            undoPos.toNat mint supply flags.toNat modifier.toNat rest
        | _ => none

/-- The read path of CDiskBlockIndex::SerializationOp, deserializing into a
default-constructed record (SetNull values).  The leading VARINT carries the
serialization format version parameter (omitted under SER_GETHASH) and is
discarded. -/
def CDiskBlockIndex.decode (serGetHash : Bool) (s : List Int) :
    Option (CDiskBlockIndex × List Int) :=
  match (if serGetHash then some s else (readOne s).map Prod.snd) with
  | none => none
  | some (height :: status :: tx :: rest) =>
    CDiskBlockIndex.decodePos height status.toNat tx rest
  | some _ => none

/-- CDiskBlockIndex::GetBlockHash.  The global `fUseFastIndex` and the
external adjusted-time source are passed explicitly; `hashFn` stands for the
external `CBlockHeader::GetHash` (primitives/block.h).  Returns the hash and
the record after the memoizing `const_cast` write. -/
def CDiskBlockIndex.GetBlockHash (d : CDiskBlockIndex)
    (hashFn : CBlockHeader → Nat) (fUseFastIndex : Bool)
    (adjustedTime : Int) : Nat × CDiskBlockIndex :=
  let b := d.toCBlockIndex
  if fUseFastIndex ∧ (b.nTime : Int) < adjustedTime - 24 * 60 * 60 ∧
      d.blockHash ≠ 0 then
    (d.blockHash, d)
  else
    let h := hashFn ⟨b.nVersion, d.hashPrev, b.hashMerkleRoot, b.nTime,
      b.nBits, b.nNonce⟩
    (h, { d with blockHash := h })

/-! ### CChain -/

/-- A `CBlockIndex*` stored in the chain vector, modelled as an abstract
machine address; chain entries are compared by pointer identity. -/
abbrev BlockPtr := Nat

structure CChain where
  vChain : List BlockPtr
deriving DecidableEq, Repr

/-- `vChain.size() > 0 ? vChain[0] : NULL`. -/
def CChain.Genesis (c : CChain) : Option BlockPtr :=
  if c.vChain.length > 0 then c.vChain.get? 0 else none

/-- `vChain.size() > 0 ? vChain[vChain.size() - 1] : NULL`. -/
def CChain.Tip (c : CChain) : Option BlockPtr :=
  if c.vChain.length > 0 then c.vChain.get? (c.vChain.length - 1) else none

/-- `operator[]`: NULL when the height is out of `[0, size)`. -/
def CChain.atHeight (c : CChain) (nHeight : Int) : Option BlockPtr :=
  if nHeight < 0 ∨ (c.vChain.length : Int) ≤ nHeight then none
  else c.vChain.get? nHeight.toNat

/-- `return vChain.size() - 1;` (0 wraps to SIZE_MAX and converts back to
-1 as an int, so the integer value is length - 1 in every case). -/
def CChain.Height (c : CChain) : Int := (c.vChain.length : Int) - 1

/-- `operator==`: compare sizes, then the entries at index `size() - 1` of
both vectors.  When both chains are empty the size test passes and the
element access is out of bounds (`size_t` index SIZE_MAX); an out-of-bounds
vector read is modelled as `none`.  For an empty list the wrapped Nat index
is 0 and `get? 0 [] = none`, matching the out-of-bounds outcome. -/
def CChain.eqCheck (a b : CChain) : Option Bool :=
  if a.vChain.length = b.vChain.length then
    match a.vChain.get? (a.vChain.length - 1),
        b.vChain.get? (b.vChain.length - 1) with
    | some x, some y => some (x == y)
    | _, _ => none
  else some false

/-! ### Bitwise helper lemmas -/

lemma nat_and_or_right (a b c : Nat) :
    (a ||| b) &&& c = (a &&& c) ||| (b &&& c) := by
  rw [Nat.and_comm, Nat.and_or_distrib_left, Nat.and_comm c a, Nat.and_comm c b]

lemma raisedStatus_valid (s u : Nat) (hu : u &&& BLOCK_VALID_MASK = u) :
    ((s &&& complement32 BLOCK_VALID_MASK) ||| u) &&& BLOCK_VALID_MASK = u := by
  rw [nat_and_or_right, Nat.and_assoc]
  have h1 : complement32 BLOCK_VALID_MASK &&& BLOCK_VALID_MASK = 0 := by decide
  rw [h1, Nat.and_zero, Nat.zero_or, hu]

lemma raisedStatus_failed (s u : Nat) (hu : u &&& BLOCK_VALID_MASK = u) :
    ((s &&& complement32 BLOCK_VALID_MASK) ||| u) &&& BLOCK_FAILED_MASK =
      s &&& BLOCK_FAILED_MASK := by
  rw [nat_and_or_right, Nat.and_assoc]
  have h1 : complement32 BLOCK_VALID_MASK &&& BLOCK_FAILED_MASK =
      BLOCK_FAILED_MASK := by decide
  have h2 : u &&& BLOCK_FAILED_MASK = 0 := by
    rw [← hu, Nat.and_assoc]
    have h3 : BLOCK_VALID_MASK &&& BLOCK_FAILED_MASK = 0 := by decide
    rw [h3, Nat.and_zero]
  rw [h1, h2, Nat.or_zero]

lemma nat_and_two (f : Nat) : f &&& 2 = 0 ∨ f &&& 2 = 2 := by
  have h : f &&& 2 ^ 1 = (f.testBit 1).toNat * 2 ^ 1 := Nat.and_two_pow f 1
  cases hb : f.testBit 1
  · left; rw [hb] at h; simpa using h
  · right; rw [hb] at h; simpa using h

lemma getStakeEntropyBit_eq_one (p : CBlockIndex)
    (h : p.GetStakeEntropyBit = 1) :
    p.nFlags &&& BLOCK_STAKE_ENTROPY = BLOCK_STAKE_ENTROPY := by
  have hs : (p.nFlags &&& BLOCK_STAKE_ENTROPY) >>> 1 = 1 := h
  have he : BLOCK_STAKE_ENTROPY = 2 := rfl
  rw [he] at hs ⊢
  rcases nat_and_two p.nFlags with h0 | h2
  · rw [h0] at hs; simp at hs
  · exact h2

/-! ### Claim theorems -/

/-- Claim C1 (confirmed): sticky failure — on a node whose status carries a
failure marker, RaiseValidity returns false and leaves the node unchanged,
and IsValid reports false, for every argument accepted by the
validity-stage assertion (Header included). -/
theorem c1_sticky_failure (p : CBlockIndex) (nUpTo : Nat)
    (hfail : p.nStatus &&& BLOCK_FAILED_MASK ≠ 0)
    (harg : validityArgOk nUpTo = true) :
    p.RaiseValidity nUpTo = some (false, p) ∧ p.IsValid nUpTo = some false := by
  refine ⟨?_, ?_⟩ <;>
    simp [CBlockIndex.RaiseValidity, CBlockIndex.IsValid, harg, hfail]

/-- Witness for C1 at a concrete failed node and the Header stage. -/
theorem c1_sticky_failure_witness :
    (CBlockIndex.mk { CBlockIndexData.null with nStatus := BLOCK_FAILED_VALID }
          none none).RaiseValidity BLOCK_VALID_HEADER =
        some (false,
          CBlockIndex.mk { CBlockIndexData.null with nStatus := BLOCK_FAILED_VALID }
            none none) ∧
      (CBlockIndex.mk { CBlockIndexData.null with nStatus := BLOCK_FAILED_VALID }
          none none).IsValid BLOCK_VALID_HEADER = some false :=
  c1_sticky_failure _ _ (by decide) (by decide)

/-- Claim C2 (confirmed): without a failure marker, RaiseValidity advances
the stored stage to the argument and returns true exactly when the argument
is strictly above the current stage, and otherwise returns false leaving the
node unchanged; in particular a node at stage Header raised to Tree and then
re-raised to Header stays at Tree with the second call returning false. -/
theorem c2_monotonic_validity :
    (∀ (p : CBlockIndex) (nUpTo : Nat),
        p.nStatus &&& BLOCK_FAILED_MASK = 0 → validityArgOk nUpTo = true →
        (p.nStatus &&& BLOCK_VALID_MASK < nUpTo →
            p.RaiseValidity nUpTo = some (true, p.withRaisedStatus nUpTo) ∧
              (p.withRaisedStatus nUpTo).nStatus &&& BLOCK_VALID_MASK = nUpTo) ∧
          (¬ p.nStatus &&& BLOCK_VALID_MASK < nUpTo →
            p.RaiseValidity nUpTo = some (false, p))) ∧
      ∀ p : CBlockIndex,
        p.nStatus &&& BLOCK_FAILED_MASK = 0 →
        p.nStatus &&& BLOCK_VALID_MASK = BLOCK_VALID_HEADER →
        p.RaiseValidity BLOCK_VALID_TREE =
            some (true, p.withRaisedStatus BLOCK_VALID_TREE) ∧
          (p.withRaisedStatus BLOCK_VALID_TREE).nStatus &&& BLOCK_VALID_MASK =
            BLOCK_VALID_TREE ∧
          (p.withRaisedStatus BLOCK_VALID_TREE).RaiseValidity
              BLOCK_VALID_HEADER =
            some (false, p.withRaisedStatus BLOCK_VALID_TREE) := by
  constructor
  · intro p u hfail harg
    have hu : u &&& BLOCK_VALID_MASK = u := by
      simpa [validityArgOk] using harg
    refine ⟨fun hlt => ⟨?_, ?_⟩, fun hge => ?_⟩
    · simp [CBlockIndex.RaiseValidity, harg, hfail, hlt]
    · have hq : (p.withRaisedStatus u).nStatus =
          (p.nStatus &&& complement32 BLOCK_VALID_MASK) ||| u := rfl
      rw [hq]; exact raisedStatus_valid _ _ hu
    · simp [CBlockIndex.RaiseValidity, harg, hfail, hge]
  · intro p hfail hstage
    have hu2 : BLOCK_VALID_TREE &&& BLOCK_VALID_MASK = BLOCK_VALID_TREE := by
      decide
    have hlt : p.nStatus &&& BLOCK_VALID_MASK < BLOCK_VALID_TREE := by
      rw [hstage]; decide
    have h1 : p.RaiseValidity BLOCK_VALID_TREE =
        some (true, p.withRaisedStatus BLOCK_VALID_TREE) := by
      simp [CBlockIndex.RaiseValidity,
        (by decide : validityArgOk BLOCK_VALID_TREE = true), hfail, hlt]
    have hq : (p.withRaisedStatus BLOCK_VALID_TREE).nStatus =
        (p.nStatus &&& complement32 BLOCK_VALID_MASK) ||| BLOCK_VALID_TREE :=
      rfl
    have hstage2 : (p.withRaisedStatus BLOCK_VALID_TREE).nStatus &&&
        BLOCK_VALID_MASK = BLOCK_VALID_TREE := by
      rw [hq]; exact raisedStatus_valid _ _ hu2
    have hfail2 : (p.withRaisedStatus BLOCK_VALID_TREE).nStatus &&&
        BLOCK_FAILED_MASK = 0 := by
      rw [hq, raisedStatus_failed _ _ hu2, hfail]
    refine ⟨h1, hstage2, ?_⟩
    have hge2 : ¬ (p.withRaisedStatus BLOCK_VALID_TREE).nStatus &&&
        BLOCK_VALID_MASK < BLOCK_VALID_HEADER := by
      rw [hstage2]; decide
    simp [CBlockIndex.RaiseValidity,
      (by decide : validityArgOk BLOCK_VALID_HEADER = true), hfail2, hge2]

/-- Witness for C2: the Header-to-Tree-then-Header sequence on a concrete
node at stage Header. -/
theorem c2_monotonic_validity_witness :
    (CBlockIndex.mk { CBlockIndexData.null with nStatus := BLOCK_VALID_HEADER }
          none none).RaiseValidity BLOCK_VALID_TREE =
        some (true,
          (CBlockIndex.mk
              { CBlockIndexData.null with nStatus := BLOCK_VALID_HEADER }
              none none).withRaisedStatus BLOCK_VALID_TREE) ∧
      ((CBlockIndex.mk
            { CBlockIndexData.null with nStatus := BLOCK_VALID_HEADER }
            none none).withRaisedStatus BLOCK_VALID_TREE).nStatus &&&
          BLOCK_VALID_MASK = BLOCK_VALID_TREE ∧
      ((CBlockIndex.mk
            { CBlockIndexData.null with nStatus := BLOCK_VALID_HEADER }
            none none).withRaisedStatus BLOCK_VALID_TREE).RaiseValidity
          BLOCK_VALID_HEADER =
        some (false,
          (CBlockIndex.mk
              { CBlockIndexData.null with nStatus := BLOCK_VALID_HEADER }
              none none).withRaisedStatus BLOCK_VALID_TREE) :=
  c2_monotonic_validity.2 _ (by decide) (by decide)

/-- Claim C4 counterexample: on the default node the PoS-detail flag is
false, yet IsProofOfWork performs no assertion and returns normally, against
the claim that reading PoW status before the flag fails fast. -/
theorem c4_counterexample :
    CBlockIndex.null.POSDetailSet = false ∧
      CBlockIndex.null.IsProofOfWork = some true ∧
      CBlockIndex.null.IsProofOfWork ≠ none := by
  refine ⟨rfl, rfl, ?_⟩
  simp [CBlockIndex.IsProofOfWork]

/-- Claim C4 (amended): only IsProofOfStake is guarded by the
PoS-detail-set assertion; IsProofOfWork never checks the flag and always
returns the complement of the proof-of-stake bit; when the flag is true both
calls succeed with complementary answers. -/
theorem c4_pos_precondition (p : CBlockIndex) :
    (p.POSDetailSet = false → p.IsProofOfStake = none) ∧
      p.IsProofOfWork = some (!(p.nFlags &&& BLOCK_PROOF_OF_STAKE != 0)) ∧
      (p.POSDetailSet = true →
        p.IsProofOfStake = some (p.nFlags &&& BLOCK_PROOF_OF_STAKE != 0) ∧
          p.IsProofOfWork = some (!(p.nFlags &&& BLOCK_PROOF_OF_STAKE != 0))) := by
  refine ⟨fun hf => ?_, ?_, fun ht => ⟨?_, ?_⟩⟩
  · simp [CBlockIndex.IsProofOfStake, hf]
  · simp [CBlockIndex.IsProofOfWork, bne, Bool.not_not]
  · simp [CBlockIndex.IsProofOfStake, ht]
  · simp [CBlockIndex.IsProofOfWork, bne, Bool.not_not]

/-- Witness for C4 (amended) at a concrete node with the flag set. -/
theorem c4_pos_precondition_witness :
    (CBlockIndex.mk { CBlockIndexData.null with POSDetailSet := true }
          none none).IsProofOfStake =
        some ((CBlockIndex.mk { CBlockIndexData.null with POSDetailSet := true }
            none none).nFlags &&& BLOCK_PROOF_OF_STAKE != 0) ∧
      (CBlockIndex.mk { CBlockIndexData.null with POSDetailSet := true }
          none none).IsProofOfWork =
        some (!((CBlockIndex.mk { CBlockIndexData.null with POSDetailSet := true }
            none none).nFlags &&& BLOCK_PROOF_OF_STAKE != 0)) :=
  (c4_pos_precondition _).2.2 rfl

/-- Claim C7 (confirmed): SetStakeEntropyBit rejects any argument above 1,
returning false with the node untouched, and reports success for 0 and 1. -/
theorem c7_entropy_bit_validation (p : CBlockIndex) (nEntropyBit : Nat) :
    (nEntropyBit > 1 → p.SetStakeEntropyBit nEntropyBit = (false, p)) ∧
      (nEntropyBit ≤ 1 → (p.SetStakeEntropyBit nEntropyBit).1 = true) := by
  constructor
  · intro h; simp [CBlockIndex.SetStakeEntropyBit, h]
  · intro h; simp [CBlockIndex.SetStakeEntropyBit, Nat.not_lt.2 h]

/-- Witness for C7 at the inputs 2 (rejected) and 1 (accepted). -/
theorem c7_entropy_bit_validation_witness :
    CBlockIndex.null.SetStakeEntropyBit 2 = (false, CBlockIndex.null) ∧
      (CBlockIndex.null.SetStakeEntropyBit 1).1 = true :=
  ⟨(c7_entropy_bit_validation CBlockIndex.null 2).1 (by decide),
    (c7_entropy_bit_validation CBlockIndex.null 1).2 (by decide)⟩

/-- Claim C10 (confirmed): SetStakeEntropyBit never clears the entropy flag;
a node whose entropy bit reads 1 keeps reading 1 after any call, and in
particular after a successful SetStakeEntropyBit 0. -/
theorem c10_entropy_never_cleared (p : CBlockIndex) (nEntropyBit : Nat) :
    (p.GetStakeEntropyBit = 1 →
        ((p.SetStakeEntropyBit nEntropyBit).2).GetStakeEntropyBit = 1) ∧
      (p.GetStakeEntropyBit = 1 →
        (p.SetStakeEntropyBit 0).1 = true ∧
          ((p.SetStakeEntropyBit 0).2).GetStakeEntropyBit = 1) := by
  have main : ∀ m : Nat, p.GetStakeEntropyBit = 1 →
      ((p.SetStakeEntropyBit m).2).GetStakeEntropyBit = 1 := by
    intro m h1
    have h2 := getStakeEntropyBit_eq_one p h1
    by_cases hm : m > 1
    · simpa [CBlockIndex.SetStakeEntropyBit, hm] using h1
    · have key : ∀ X : Nat, X = BLOCK_STAKE_ENTROPY ∨ X = 0 →
          ((p.nFlags ||| X) &&& BLOCK_STAKE_ENTROPY) >>> 1 = 1 := by
        intro X hx
        have hd : (p.nFlags ||| X) &&& BLOCK_STAKE_ENTROPY =
            (p.nFlags &&& BLOCK_STAKE_ENTROPY) ||| (X &&& BLOCK_STAKE_ENTROPY) :=
          nat_and_or_right _ _ _
        rcases hx with rfl | rfl <;> rw [hd, h2] <;> decide
      by_cases hz : m ≠ 0
      · simpa [CBlockIndex.SetStakeEntropyBit, hm, hz,
          CBlockIndex.GetStakeEntropyBit, CBlockIndex.withData,
          CBlockIndex.nFlags, CBlockIndex.data] using key BLOCK_STAKE_ENTROPY
            (Or.inl rfl)
      · simpa [CBlockIndex.SetStakeEntropyBit, hm, hz,
          CBlockIndex.GetStakeEntropyBit, CBlockIndex.withData,
          CBlockIndex.nFlags, CBlockIndex.data] using key 0 (Or.inr rfl)
  refine ⟨main nEntropyBit, fun h1 => ⟨?_, main 0 h1⟩⟩
  simp [CBlockIndex.SetStakeEntropyBit]

/-- Witness for C10: a node with the entropy flag already set, passed 0. -/
theorem c10_entropy_never_cleared_witness :
    ((CBlockIndex.mk { CBlockIndexData.null with nFlags := BLOCK_STAKE_ENTROPY }
          none none).SetStakeEntropyBit 0).1 = true ∧
      (((CBlockIndex.mk
            { CBlockIndexData.null with nFlags := BLOCK_STAKE_ENTROPY }
            none none).SetStakeEntropyBit 0).2).GetStakeEntropyBit = 1 :=
  (c10_entropy_never_cleared _ 0).2 (by decide)

/-- A node with a given block time over SetNull defaults, linked to an
optional parent: the shape needed to exercise GetMedianTimePast. -/
def nodeWithTime (t : Nat) (par : Option CBlockIndex) : CBlockIndex :=
  CBlockIndex.mk { CBlockIndexData.null with nTime := t } par none

/-- A linear chain built from a list of block times, newest first. -/
def chainOfTimes : Nat → List Nat → CBlockIndex
  | t, [] => nodeWithTime t none
  | t, u :: rest => nodeWithTime t (some (chainOfTimes u rest))

/-- Claim C5 (confirmed): GetMedianTimePast returns the element at index
count / 2 of the sorted list of the collected block times (this node and up
to 10 ancestors), and on the 11-node chain with times
100,103,107,110,111,112,115,120,121,130,140 it returns 112. -/
theorem c5_median_time_past :
    (∀ p : CBlockIndex,
        ∃ l : List Int,
          l.Perm (CBlockIndex.medianTimes nMedianTimeSpan p) ∧
            l.Sorted (· ≤ ·) ∧
            p.GetMedianTimePast =
              l.getD ((CBlockIndex.medianTimes nMedianTimeSpan p).length / 2)
                0) ∧
      (chainOfTimes 140
            [130, 121, 120, 115, 112, 111, 110, 107, 103,
              100]).GetMedianTimePast = 112 := by
  constructor
  · intro p
    exact ⟨(CBlockIndex.medianTimes nMedianTimeSpan p).insertionSort (· ≤ ·),
      List.perm_insertionSort _ _, List.sorted_insertionSort _ _, rfl⟩
  · decide

/-- Claim C8 (confirmed): the chain accessors are total — `operator[]`
returns the stored entry for heights within [0, Height] and NULL otherwise,
Genesis and Tip are NULL exactly on the empty chain, and Height is
length - 1 (so -1 when empty). -/
theorem c8_chain_accessors (c : CChain) (h : Int) :
    (0 ≤ h ∧ h ≤ c.Height →
        c.atHeight h = c.vChain.get? h.toNat ∧
          (c.atHeight h).isSome = true) ∧
      (h < 0 ∨ c.Height < h → c.atHeight h = none) ∧
      (c.Genesis = none ↔ c.vChain = []) ∧
      (c.Tip = none ↔ c.vChain = []) ∧
      c.Height = (c.vChain.length : Int) - 1 := by
  obtain ⟨l⟩ := c
  have hH : CChain.Height ⟨l⟩ = (l.length : Int) - 1 := rfl
  refine ⟨?_, ?_, ?_, ?_, rfl⟩
  · rintro ⟨h0, h1⟩
    rw [hH] at h1
    have hc : ¬ (h < 0 ∨ (l.length : Int) ≤ h) := by omega
    have hlt : h.toNat < l.length := by omega
    refine ⟨by simp [CChain.atHeight, hc], ?_⟩
    simp [CChain.atHeight, hc, List.getElem?_eq_getElem hlt]
  · intro hor
    rw [hH] at hor
    have hc : h < 0 ∨ (l.length : Int) ≤ h := by omega
    simp [CChain.atHeight, hc]
  · cases l with
    | nil => simp [CChain.Genesis]
    | cons x t => simp [CChain.Genesis]
  · cases l with
    | nil => simp [CChain.Tip]
    | cons x t =>
      have hlt : (x :: t).length - 1 < (x :: t).length := by simp
      simp [CChain.Tip, List.get?_eq_get hlt]

/-- Witness for C8 on the concrete chain [5, 7] at heights 1 and 2. -/
theorem c8_chain_accessors_witness :
    ((⟨[5, 7]⟩ : CChain).atHeight 1 =
          (⟨[5, 7]⟩ : CChain).vChain.get? (1 : Int).toNat ∧
        ((⟨[5, 7]⟩ : CChain).atHeight 1).isSome = true) ∧
      (⟨[5, 7]⟩ : CChain).atHeight 2 = none :=
  ⟨(c8_chain_accessors ⟨[5, 7]⟩ 1).1 ⟨by decide, by decide⟩,
    (c8_chain_accessors ⟨[5, 7]⟩ 2).2.1 (Or.inr (by decide))⟩

/-- Claim C9 (code bug): comparing two empty chains with `operator==`
passes the size test and then reads `vChain[size() - 1]` with size 0 — an
out-of-bounds access (modelled as `none`), so the element access is not
within bounds for every pair of equal-length chains. -/
theorem c9_empty_chain_oob : CChain.eqCheck ⟨[]⟩ ⟨[]⟩ = none := rfl

/-- Claim C6 (confirmed): GetBlockHash returns the cached hash, mutating
nothing, exactly under fast-index mode with a record older than 24 hours and
a nonzero cache; otherwise it recomputes the hash from the header fields,
stores it, and returns it. -/
theorem c6_memoized_hash (d : CDiskBlockIndex) (hashFn : CBlockHeader → Nat)
    (fUseFastIndex : Bool) (adjustedTime : Int) :
    ((fUseFastIndex = true ∧
          (d.toCBlockIndex.nTime : Int) < adjustedTime - 24 * 60 * 60 ∧
          d.blockHash ≠ 0) →
        d.GetBlockHash hashFn fUseFastIndex adjustedTime = (d.blockHash, d)) ∧
      (¬ (fUseFastIndex = true ∧
            (d.toCBlockIndex.nTime : Int) < adjustedTime - 24 * 60 * 60 ∧
            d.blockHash ≠ 0) →
        d.GetBlockHash hashFn fUseFastIndex adjustedTime =
          (hashFn ⟨d.toCBlockIndex.nVersion, d.hashPrev,
              d.toCBlockIndex.hashMerkleRoot, d.toCBlockIndex.nTime,
              d.toCBlockIndex.nBits, d.toCBlockIndex.nNonce⟩,
            { d with
              blockHash := hashFn ⟨d.toCBlockIndex.nVersion, d.hashPrev,
                d.toCBlockIndex.hashMerkleRoot, d.toCBlockIndex.nTime,
                d.toCBlockIndex.nBits, d.toCBlockIndex.nNonce⟩ })) := by
  constructor
  · intro hcond
    simp only [CDiskBlockIndex.GetBlockHash]
    rw [if_pos hcond]
  · intro hcond
    simp only [CDiskBlockIndex.GetBlockHash]
    rw [if_neg hcond]

/-- Witness for C6: an old, cached record under fast-index mode returns the
cached value 5 untouched. -/
theorem c6_memoized_hash_witness :
    (⟨CBlockIndex.null, 5, 0⟩ : CDiskBlockIndex).GetBlockHash
        (fun _ => 7) true 1000000 =
      (5, (⟨CBlockIndex.null, 5, 0⟩ : CDiskBlockIndex)) :=
  (c6_memoized_hash _ _ _ _).1 ⟨rfl, by decide, by decide⟩

/-- Inversion of the CDiskBlockIndex constructor: a successfully built
record copies the node and has a zero hash cache. -/
lemma ofIndex_some (p : CBlockIndex) (d : CDiskBlockIndex)
    (hd : CDiskBlockIndex.ofIndex p = some d) :
    d.toCBlockIndex = p ∧ d.blockHash = 0 := by
  unfold CDiskBlockIndex.ofIndex at hd
  rcases hp : p.pprev with _ | pr <;> rw [hp] at hd
  · injection hd with h
    subst h
    exact ⟨rfl, rfl⟩
  · rcases hh : pr.GetBlockHash with _ | hv
    · simp only [hh] at hd
      exact Option.noConfusion hd
    · simp only [hh] at hd
      injection hd with h
      subst h
      exact ⟨rfl, rfl⟩

/-- The full persistence pipeline for one node: build the disk record from
the node, serialize it, deserialize the result. -/
def diskRoundTrip (p : CBlockIndex) (serVersion : Int) :
    Option (CDiskBlockIndex × List Int) :=
  (CDiskBlockIndex.ofIndex p).bind
    (fun d => CDiskBlockIndex.decode false (d.encode false serVersion))

/-- Claim C3 counterexample: a node with nFile = 1 (but no availability
flags) and nChainTrust = 1 comes back from the encode/decode round trip
with nFile = 0 and nChainTrust = 0, so not every field other than the
parent pointer is preserved. -/
theorem c3_counterexample :
    (CBlockIndex.mk
          { CBlockIndexData.null with nFile := 1, nChainTrust := 1 }
          none none).nFile = 1 ∧
      (CBlockIndex.mk
          { CBlockIndexData.null with nFile := 1, nChainTrust := 1 }
          none none).nChainTrust = 1 ∧
      (diskRoundTrip
            (CBlockIndex.mk
              { CBlockIndexData.null with nFile := 1, nChainTrust := 1 }
              none none) 0).map
          (fun r => (r.1.toCBlockIndex.nFile, r.1.toCBlockIndex.nChainTrust)) =
        some (0, 0) :=
  ⟨rfl, rfl, rfl⟩

set_option maxHeartbeats 1600000 in
/-- Claim C3 (amended): the encode/decode round trip through
CDiskBlockIndexRecord preserves height, status, tx count, mint, money
supply, flags, stake modifier, proof hash, the header fields and the cached
block hash; the parent pointer is replaced by hashPrev; the disk-position
fields survive only under their availability flags (otherwise decoding
leaves them zero); a non-proof-of-stake record decodes with null/zero stake
outpoint and stake time; the PoS-detail-set flag decodes to true; and the
memory-only fields (chain trust, chain tx count, sequence id, pointers)
decode to their SetNull defaults. -/
theorem c3_round_trip (p : CBlockIndex) (v : Int) (d : CDiskBlockIndex)
    (hd : CDiskBlockIndex.ofIndex p = some d) :
    CDiskBlockIndex.decode false (d.encode false v) =
      some
        (⟨CBlockIndex.mk
            { CBlockIndexData.null with
              nHeight := p.nHeight
              nStatus := p.nStatus
              nTx := p.nTx
              nFile :=
                if p.nStatus &&& (BLOCK_HAVE_DATA ||| BLOCK_HAVE_UNDO) ≠ 0 then
                  p.nFile
                else 0
              nDataPos :=
                if p.nStatus &&& BLOCK_HAVE_DATA ≠ 0 then p.nDataPos else 0
              nUndoPos :=
                if p.nStatus &&& BLOCK_HAVE_UNDO ≠ 0 then p.nUndoPos else 0
              nMint := p.nMint
              nMoneySupply := p.nMoneySupply
              nFlags := p.nFlags
              nStakeModifier := p.nStakeModifier
              prevoutStake :=
                if p.nFlags &&& BLOCK_PROOF_OF_STAKE ≠ 0 then p.prevoutStake
                else COutPoint.null
              nStakeTime :=
                if p.nFlags &&& BLOCK_PROOF_OF_STAKE ≠ 0 then p.nStakeTime
                else 0
              hashProof := p.hashProof
              POSDetailSet := true
              nVersion := p.nVersion
              hashMerkleRoot := p.hashMerkleRoot
              nTime := p.nTime
              nBits := p.nBits
              nNonce := p.nNonce }
            none none,
          0, d.hashPrev⟩,
        []) := by
  obtain ⟨pc, bh, hpv⟩ := d
  obtain ⟨hb, hz⟩ := ofIndex_some p ⟨pc, bh, hpv⟩ hd
  dsimp only at hb hz
  subst hz
  have hb2 := hb.symm
  subst hb2
  by_cases h1 : p.nStatus &&& (BLOCK_HAVE_DATA ||| BLOCK_HAVE_UNDO) = 0 <;>
    by_cases h2 : p.nStatus &&& BLOCK_HAVE_DATA = 0 <;>
      by_cases h3 : p.nStatus &&& BLOCK_HAVE_UNDO = 0 <;>
        by_cases h4 : p.nFlags &&& BLOCK_PROOF_OF_STAKE = 0 <;>
          simp [CDiskBlockIndex.encode, CDiskBlockIndex.decode,
            CDiskBlockIndex.decodePos, CDiskBlockIndex.decodeStake,
            CDiskBlockIndex.decodeRest, readOne, readIf, h1, h2, h3, h4]

/-- A concrete node with both availability flags, disk positions, and stake
data, whose parent carries hash 99: input for the C3 round-trip witness. -/
def c3WitnessNode : CBlockIndex :=
  CBlockIndex.mk
    { CBlockIndexData.null with
      nHeight := 6
      nStatus := 24
      nFile := 3
      nDataPos := 4
      nUndoPos := 5
      nFlags := 1
      prevoutStake := ⟨9, 2⟩
      nStakeTime := 77 }
    (some (CBlockIndex.mk
      { CBlockIndexData.null with phashBlock := some 99 } none none))
    none

/-- Witness for C3 (amended) on the concrete node. -/
theorem c3_round_trip_witness :
    CDiskBlockIndex.decode false
        ((⟨c3WitnessNode, 0, 99⟩ : CDiskBlockIndex).encode false 7) =
      some
        (⟨CBlockIndex.mk
            { CBlockIndexData.null with
              nHeight := 6
              nStatus := 24
              nFile := 3
              nDataPos := 4
              nUndoPos := 5
              nFlags := 1
              prevoutStake := ⟨9, 2⟩
              nStakeTime := 77
              POSDetailSet := true }
            none none,
          0, 99⟩,
        []) :=
  c3_round_trip c3WitnessNode 7 ⟨c3WitnessNode, 0, 99⟩ rfl
